import Mathlib

/-!
Verification of the vertical-pod-autoscaler updater control loop against its
specification.  The repository snapshot ships the updater's test suite
(`updater_test.go`) but not `updater.go` itself, so the control loop, the rate
limiter constructor and the event recorder are modelled from the spec
(sections 4.1-4.4 and 6), faithful to its words, and the claims are settled
against that model.
-/

namespace VpaUpdater

/-- Token-bucket rate limiter.  `inf` is the unlimited limiter
(`rate.NewLimiter(rate.Inf, 0)` in the source's test); `bucket` carries the
configured rate, the configured burst and the current token count. -/
inductive Limiter where
  | inf : Limiter
  | bucket (limit : Rat) (burst : Int) (tokens : Int) : Limiter
deriving DecidableEq, Repr

/-- Non-blocking "try to take one token" (spec 4.1: atomic try-take-one
returning a boolean, never blocking for refill).  The unlimited limiter always
succeeds; a bucket succeeds while it has a positive token count. -/
def Limiter.tryTake : Limiter → Bool × Limiter
  | .inf => (true, .inf)
  | .bucket l b t =>
    if 0 < t then (true, .bucket l b (t - 1)) else (false, .bucket l b t)

/-- Modelled from the spec: `getRateLimiter` (absent from src/, only its test
`TestGetRateLimiter` is present).  Spec 4.1: a configured rate ≤ 0 yields the
unlimited limiter regardless of burst; a rate > 0 yields a token bucket
enforcing that rate with the given burst as maximum instantaneous allowance. -/
def getRateLimiter (rateLimit : Rat) (rateLimitBurst : Int) : Limiter :=
  if rateLimit ≤ 0 then Limiter.inf
  else Limiter.bucket rateLimit rateLimitBurst rateLimitBurst

/-- Reported rate of a limiter (`Limit()` in the source's test); the unlimited
limiter reports no finite rate. -/
def Limiter.limitOf : Limiter → Option Rat
  | .inf => none
  | .bucket l _ _ => some l

/-- Reported burst of a limiter (`Burst()` in the source's test). -/
def Limiter.burstOf : Limiter → Option Int
  | .inf => none
  | .bucket _ b _ => some b

/-- `takesOk l n` is true when `n` successive token takes all succeed. -/
def takesOk : Limiter → Nat → Bool
  | _, 0 => true
  | l, n + 1 => (l.tryTake).1 && takesOk (l.tryTake).2 n

/-- A live pod: identity (name, namespace) plus labels (spec section 3). -/
structure Pod where
  name : String
  ns : String
  labels : List (String × String)
deriving DecidableEq, Repr

/-- A label selector, as the set of required `key = value` pairs. -/
structure Selector where
  requirements : List (String × String)
deriving DecidableEq, Repr

/-- A selector matches a label set when every requirement is present. -/
def Selector.matchesLabels (s : Selector) (labels : List (String × String)) : Bool :=
  s.requirements.all (fun kv => labels.contains kv)

/-- Update mode enumeration (spec section 3). -/
inductive UpdateMode where
  | Off | Initial | Auto | InPlaceOrRecreate
deriving DecidableEq, Repr

/-- Decision of the in-place restriction provider (spec section 3). -/
inductive InPlaceDecision where
  | Approved | Deferred | Evict
deriving DecidableEq, Repr

/-- A workload policy object ("VPA"): name, namespace, and an optional update
mode (the field may be unset, spec 4.3.b). -/
structure Workload where
  name : String
  ns : String
  updateMode : Option UpdateMode
deriving DecidableEq, Repr

/-- The external collaborators of one cycle (spec section 6), as pure
functions: the status validator's verdict, the selector resolver, the two
restriction providers (eligibility and action outcome), the recommendation
processor ("a resource change is required"), the priority processor
(membership in the returned ordered subset; order is the pod-list order), and
the feature gate honouring InPlaceOrRecreate. -/
structure Env where
  statusValid : Bool
  fetch : Workload → Option Selector
  canEvict : Pod → Bool
  evictOk : Pod → Bool
  canInPlaceUpdate : Pod → InPlaceDecision
  inPlaceOk : Pod → Bool
  needsChange : Pod → Bool
  inCandidates : Pod → Bool
  gateInPlace : Bool

/-- Observable events of one cycle: a selector fetch for a workload, an
in-place action on a pod (with the action's outcome), an eviction action on a
pod (with the action's outcome). -/
inductive Ev where
  | fetch (w : Workload)
  | inPlace (p : Pod) (ok : Bool)
  | evict (p : Pod) (ok : Bool)
deriving DecidableEq, Repr

/-- The cycle's shared mutable state: the two rate limiters (spec 4.1, shared
across the whole cycle and all workloads). -/
structure LimSt where
  evictL : Limiter
  inPlaceL : Limiter
deriving DecidableEq, Repr

/-- Both limiters unlimited, as constructed in the source's tests. -/
def infLs : LimSt := { evictL := Limiter.inf, inPlaceL := Limiter.inf }

/-- Modelled from the spec: the Eviction Path of the Disruption Decision
(spec 4.4, absent from src/).  Take one eviction token (consumed even if a
later check fails); if unavailable, no action.  Then the eligibility check;
if ineligible, no action.  Otherwise invoke the eviction action; its failure
is logged and processing continues. -/
def evictionPath (env : Env) (ls : LimSt) (p : Pod) : LimSt × List Ev :=
  let r := ls.evictL.tryTake
  let ls1 : LimSt := { ls with evictL := r.2 }
  if r.1 then
    if env.canEvict p then (ls1, [Ev.evict p (env.evictOk p)])
    else (ls1, [])
  else (ls1, [])

/-- Modelled from the spec: the per-pod Disruption Decision (spec 4.4, absent
from src/).  Auto goes straight to the Eviction Path.  InPlaceOrRecreate takes
one in-place token (if unavailable, no action on this pod); then consults the
in-place eligibility: Deferred means no action, Evict means go to the Eviction
Path, Approved means invoke the in-place action, falling back to the Eviction
Path for this same pod when the action fails.  Off/Initial workloads never
reach this point (spec 4.3.c-d). -/
def processPod (env : Env) (mode : UpdateMode) (ls : LimSt) (p : Pod) :
    LimSt × List Ev :=
  match mode with
  | .Auto => evictionPath env ls p
  | .InPlaceOrRecreate =>
    let r := ls.inPlaceL.tryTake
    let ls1 : LimSt := { ls with inPlaceL := r.2 }
    if r.1 then
      match env.canInPlaceUpdate p with
      | .Deferred => (ls1, [])
      | .Evict => evictionPath env ls1 p
      | .Approved =>
        if env.inPlaceOk p then (ls1, [Ev.inPlace p true])
        else
          let r2 := evictionPath env ls1 p
          (r2.1, Ev.inPlace p false :: r2.2)
    else (ls1, [])
  | .Off => (ls, [])
  | .Initial => (ls, [])

/-- Sequential processing of one workload's ordered candidate list
(spec 4.3.i), threading the shared limiters and concatenating events. -/
def processCandidates (env : Env) (mode : UpdateMode) :
    LimSt → List Pod → LimSt × List Ev
  | ls, [] => (ls, [])
  | ls, p :: rest =>
    let r1 := processPod env mode ls p
    let r2 := processCandidates env mode r1.1 rest
    (r2.1, r1.2 ++ r2.2)

/-- Effective update mode (spec 4.3.b: default Auto if unset; spec section 6:
when the feature gate is disabled, InPlaceOrRecreate behaves as Auto). -/
def effectiveMode (env : Env) (w : Workload) : UpdateMode :=
  let m := w.updateMode.getD UpdateMode.Auto
  if m == UpdateMode.InPlaceOrRecreate && !env.gateInPlace then UpdateMode.Auto
  else m

/-- The candidates of a workload given its resolved selector: same-namespace
pods matching the selector (spec 4.3.f), needing a resource change
(spec 4.3.g), retained by the priority processor (spec 4.3.h). -/
def candidatesOf (env : Env) (pods : List Pod) (w : Workload) (sel : Selector) :
    List Pod :=
  (((pods.filter (fun p => p.ns == w.ns && sel.matchesLabels p.labels)).filter
      env.needsChange).filter env.inCandidates)

/-- Modelled from the spec: per-workload step of the control loop
(spec 4.3.a-i, absent from src/).  An ignored namespace is skipped entirely;
so are modes Off and Initial.  Otherwise the selector is resolved (a fetch
event even on failure, which skips only this workload), the candidate list is
built and processed. -/
def processWorkload (env : Env) (pods : List Pod) (ignored : List String)
    (ls : LimSt) (w : Workload) : LimSt × List Ev :=
  if ignored.contains w.ns then (ls, [])
  else
    match effectiveMode env w with
    | .Off => (ls, [])
    | .Initial => (ls, [])
    | mode =>
      match env.fetch w with
      | none => (ls, [Ev.fetch w])
      | some sel =>
        let r := processCandidates env mode ls (candidatesOf env pods w sel)
        (r.1, Ev.fetch w :: r.2)

/-- Workloads processed sequentially in lister-return order (spec 4.3.4). -/
def processWorkloads (env : Env) (pods : List Pod) (ignored : List String) :
    LimSt → List Workload → LimSt × List Ev
  | ls, [] => (ls, [])
  | ls, w :: rest =>
    let r1 := processWorkload env pods ignored ls w
    let r2 := processWorkloads env pods ignored r1.1 rest
    (r2.1, r1.2 ++ r2.2)

/-- Modelled from the spec: `RunOnce`, one cycle of the updater control loop
(spec 4.3, absent from src/ — only its tests are).  The workload list is
obtained first (an empty list ends the cycle); then the status gate (spec 4.2)
is evaluated — if invalid, the cycle has zero disruptive side effects; then
the cluster-wide pod list is used for all workloads. -/
def runOnce (env : Env) (ignored : List String) (ls : LimSt)
    (workloads : List Workload) (pods : List Pod) : LimSt × List Ev :=
  if workloads.isEmpty then (ls, [])
  else if !env.statusValid then (ls, [])
  else processWorkloads env pods ignored ls workloads

/-- Whether a pod would be selected for a workload in this cycle: same
namespace and resolved selector matching its labels (spec 4.3.f). -/
def matchesWorkload (env : Env) (w : Workload) (p : Pod) : Bool :=
  p.ns == w.ns &&
    (match env.fetch w with
     | some sel => sel.matchesLabels p.labels
     | none => false)

/-- Is the event an in-place action (on any pod)? -/
def isInPlaceEv : Ev → Bool
  | .inPlace _ _ => true
  | _ => false

/-- Is the event an eviction action (on any pod)? -/
def isEvictEv : Ev → Bool
  | .evict _ _ => true
  | _ => false

/-- Is the event a disruptive action on this pod? -/
def aboutPod (p : Pod) : Ev → Bool
  | .fetch _ => false
  | .inPlace q _ => q == p
  | .evict q _ => q == p

/-- The subtrace of disruptive actions on one pod. -/
def podEvents (p : Pod) (evs : List Ev) : List Ev := evs.filter (aboutPod p)

/-- Is the event an in-place action on this pod? -/
def isInPlaceOf (p : Pod) : Ev → Bool
  | .inPlace q _ => q == p
  | _ => false

/-- Is the event a successful in-place action on this pod? -/
def isInPlaceSuccOf (p : Pod) : Ev → Bool
  | .inPlace q true => q == p
  | _ => false

/-- Is the event an eviction action on this pod? -/
def isEvictOf (p : Pod) : Ev → Bool
  | .evict q _ => q == p
  | _ => false

/-- An in-place update was performed (successfully) on this pod. -/
def inPlacePerformed (p : Pod) (evs : List Ev) : Bool := evs.any (isInPlaceSuccOf p)

/-- An eviction was performed on this pod. -/
def evictionPerformed (p : Pod) (evs : List Ev) : Bool := evs.any (isEvictOf p)

/-- Some in-place action (successful or not) on this pod appears. -/
def hasInPlaceOf (p : Pod) (evs : List Ev) : Bool := evs.any (isInPlaceOf p)

/-- An eviction of this pod is later followed by an in-place attempt on it. -/
def evictThenInPlace (p : Pod) : List Ev → Bool
  | [] => false
  | e :: rest => (isEvictOf p e && hasInPlaceOf p rest) || evictThenInPlace p rest

/-- Number of eviction actions in a trace. -/
def countEvicts (evs : List Ev) : Nat := (evs.filter isEvictEv).length

/-- Number of in-place actions in a trace. -/
def countInPlace (evs : List Ev) : Nat := (evs.filter isInPlaceEv).length

/-- The per-pod subtraces the Disruption Decision can produce (spec 4.4's
state machine summary): nothing, one successful in-place, one failed in-place
(the eviction path then declined), one failed in-place followed by one
eviction, or one eviction.  In particular never an in-place after an
eviction, and never two performed actions. -/
def ShapeOk (env : Env) (p : Pod) (t : List Ev) : Prop :=
  t = [] ∨ t = [Ev.inPlace p true] ∨ t = [Ev.inPlace p false] ∨
  t = [Ev.inPlace p false, Ev.evict p (env.evictOk p)] ∨
  t = [Ev.evict p (env.evictOk p)]

/-- The five live pods of the source's tests (`test_0`..`test_4`, namespace
`default`, labels `app = testingApp`). -/
def pods5 : List Pod :=
  [{ name := "test_0", ns := "default", labels := [("app", "testingApp")] },
   { name := "test_1", ns := "default", labels := [("app", "testingApp")] },
   { name := "test_2", ns := "default", labels := [("app", "testingApp")] },
   { name := "test_3", ns := "default", labels := [("app", "testingApp")] },
   { name := "test_4", ns := "default", labels := [("app", "testingApp")] }]

/-- The selector `app = testingApp` of the source's tests. -/
def sel5 : Selector := { requirements := [("app", "testingApp")] }

/-- A test workload in namespace `default` with a given update-mode field. -/
def testW (m : Option UpdateMode) : Workload :=
  { name := "vpa", ns := "default", updateMode := m }

/-- A test environment mirroring `testRunOnceBase`: every pod can be evicted
and eviction succeeds, every pod needs a change and is a candidate, the
selector resolver returns `sel5`, and the in-place decision/outcome and the
status verdict are parameters. -/
def testEnv (valid : Bool) (dec : InPlaceDecision) (ipOk : Bool) : Env :=
  { statusValid := valid
    fetch := fun _ => some sel5
    canEvict := fun _ => true
    evictOk := fun _ => true
    canInPlaceUpdate := fun _ => dec
    inPlaceOk := fun _ => ipOk
    needsChange := fun _ => true
    inCandidates := fun _ => true
    gateInPlace := true }

/-- The first test pod, on its own. -/
def podA : Pod :=
  { name := "test_0", ns := "default", labels := [("app", "testingApp")] }

/-- One recorded cluster event (spec section 6's event sink; the fields the
source's `TestNewEventRecorder` inspects). -/
structure RecordedEvent where
  eventType : String
  reason : String
  message : String
  sourceComponent : String
deriving DecidableEq, Repr

/-- Modelled from the spec: recording one event through the recorder built by
`newEventRecorder` (absent from src/, only its test is).  The sink records a
human-readable event keyed by type/reason/message against a target object,
attributed to the fixed component `vpa-updater`. -/
def recordEvent {α : Type} (obj : α) (etype reason message : String) :
    List (α × RecordedEvent) :=
  [(obj, { eventType := etype, reason := reason, message := message,
           sourceComponent := "vpa-updater" })]

/-! ## Helper lemmas -/

theorem takesOk_inf (n : Nat) : takesOk Limiter.inf n = true := by
  induction n with
  | zero => rfl
  | succ n ih => simpa [takesOk, Limiter.tryTake] using ih

theorem evictionPath_shape (env : Env) (ls : LimSt) (p : Pod) :
    (evictionPath env ls p).2 = [] ∨
    (evictionPath env ls p).2 = [Ev.evict p (env.evictOk p)] := by
  unfold evictionPath
  by_cases h1 : (ls.evictL.tryTake).1 <;> by_cases h2 : env.canEvict p <;>
    simp [h1, h2]

theorem processPod_auto (env : Env) (ls : LimSt) (p : Pod) :
    processPod env UpdateMode.Auto ls p = evictionPath env ls p := rfl

theorem processPod_shape (env : Env) (mode : UpdateMode) (ls : LimSt) (p : Pod) :
    (processPod env mode ls p).2 = [] ∨
    (processPod env mode ls p).2 = [Ev.inPlace p true] ∨
    (processPod env mode ls p).2 = [Ev.inPlace p false] ∨
    (processPod env mode ls p).2 =
      [Ev.inPlace p false, Ev.evict p (env.evictOk p)] ∨
    (processPod env mode ls p).2 = [Ev.evict p (env.evictOk p)] := by
  cases mode with
  | Auto =>
    rcases evictionPath_shape env ls p with h | h <;> rw [processPod_auto] <;>
      simp [h]
  | Off => left; rfl
  | Initial => left; rfl
  | InPlaceOrRecreate =>
    unfold processPod
    by_cases h1 : (ls.inPlaceL.tryTake).1
    · cases hd : env.canInPlaceUpdate p with
      | Deferred => simp [h1, hd]
      | Evict =>
        rcases evictionPath_shape env { ls with inPlaceL := (ls.inPlaceL.tryTake).2 } p with
          h | h <;> simp [h1, hd, h]
      | Approved =>
        by_cases h2 : env.inPlaceOk p
        · simp [h1, hd, h2]
        · rcases evictionPath_shape env { ls with inPlaceL := (ls.inPlaceL.tryTake).2 } p with
            h | h <;> simp [h1, hd, h2, h]
    · simp [h1]

theorem podEvents_processPod_self (env : Env) (mode : UpdateMode) (ls : LimSt)
    (p : Pod) :
    podEvents p (processPod env mode ls p).2 = (processPod env mode ls p).2 := by
  rcases processPod_shape env mode ls p with h | h | h | h | h <;>
    simp [h, podEvents, aboutPod]

theorem podEvents_processPod_other (env : Env) (mode : UpdateMode) (ls : LimSt)
    (p q : Pod) (hne : q ≠ p) :
    podEvents q (processPod env mode ls p).2 = [] := by
  rcases processPod_shape env mode ls p with h | h | h | h | h <;>
    simp [h, podEvents, aboutPod] <;> exact fun hpq => hne hpq.symm

theorem shapeOk_processPod (env : Env) (mode : UpdateMode) (ls : LimSt)
    (p : Pod) :
    ShapeOk env p (processPod env mode ls p).2 :=
  processPod_shape env mode ls p

theorem podEvents_append (p : Pod) (l1 l2 : List Ev) :
    podEvents p (l1 ++ l2) = podEvents p l1 ++ podEvents p l2 := by
  simp [podEvents, List.filter_append]

theorem podEvents_processCandidates_not_mem (env : Env) (mode : UpdateMode)
    (p : Pod) :
    ∀ (cands : List Pod) (ls : LimSt), p ∉ cands →
      podEvents p (processCandidates env mode ls cands).2 = [] := by
  intro cands
  induction cands with
  | nil => intro ls _; simp [processCandidates, podEvents]
  | cons q rest ih =>
    intro ls hmem
    have hq : p ≠ q := fun h => hmem (h ▸ List.mem_cons_self q rest)
    have hrest : p ∉ rest := fun h => hmem (List.mem_cons_of_mem q h)
    show podEvents p ((processPod env mode ls q).2 ++ _) = []
    rw [podEvents_append, podEvents_processPod_other env mode ls q p hq,
      ih _ hrest]
    rfl

theorem shapeOk_processCandidates (env : Env) (mode : UpdateMode) (p : Pod) :
    ∀ (cands : List Pod) (ls : LimSt), cands.Nodup →
      ShapeOk env p (podEvents p (processCandidates env mode ls cands).2) := by
  intro cands
  induction cands with
  | nil => intro ls _; left; simp [processCandidates, podEvents]
  | cons q rest ih =>
    intro ls hnd
    rcases List.nodup_cons.mp hnd with ⟨hq, hrest⟩
    show ShapeOk env p (podEvents p ((processPod env mode ls q).2 ++ _))
    rw [podEvents_append]
    by_cases hpq : p = q
    · subst hpq
      rw [podEvents_processCandidates_not_mem env mode p rest _ hq,
        List.append_nil, podEvents_processPod_self]
      exact shapeOk_processPod env mode ls p
    · rw [podEvents_processPod_other env mode ls q p hpq, List.nil_append]
      exact ih _ hrest

theorem mem_candidatesOf (env : Env) (pods : List Pod) (w : Workload)
    (sel : Selector) (p : Pod) (hfetch : env.fetch w = some sel)
    (h : p ∈ candidatesOf env pods w sel) : matchesWorkload env w p = true := by
  unfold candidatesOf at h
  rcases List.mem_filter.mp h with ⟨h2, _⟩
  rcases List.mem_filter.mp h2 with ⟨h3, _⟩
  rcases List.mem_filter.mp h3 with ⟨_, hmatch⟩
  unfold matchesWorkload
  rw [hfetch]
  exact hmatch

theorem candidatesOf_nodup (env : Env) (pods : List Pod) (w : Workload)
    (sel : Selector) (hnd : pods.Nodup) : (candidatesOf env pods w sel).Nodup := by
  unfold candidatesOf
  exact ((hnd.filter _).filter _).filter _

theorem podEvents_fetch_cons (p : Pod) (w : Workload) (l : List Ev) :
    podEvents p (Ev.fetch w :: l) = podEvents p l := by
  simp [podEvents, List.filter_cons, aboutPod]

theorem podEvents_processWorkload_not_match (env : Env) (pods : List Pod)
    (ignored : List String) (ls : LimSt) (w : Workload) (p : Pod)
    (h : matchesWorkload env w p = false) :
    podEvents p (processWorkload env pods ignored ls w).2 = [] := by
  unfold processWorkload
  by_cases hig : ignored.contains w.ns
  · rw [if_pos hig]; rfl
  · rw [if_neg hig]
    cases hm : effectiveMode env w with
    | Off => rfl
    | Initial => rfl
    | Auto =>
      cases hf : env.fetch w with
      | none => rfl
      | some sel =>
        show podEvents p (Ev.fetch w ::
          (processCandidates env UpdateMode.Auto ls (candidatesOf env pods w sel)).2) = []
        rw [podEvents_fetch_cons]
        refine podEvents_processCandidates_not_mem env _ p _ ls (fun hmem => ?_)
        rw [mem_candidatesOf env pods w sel p hf hmem] at h
        exact Bool.true_eq_false.mp h
    | InPlaceOrRecreate =>
      cases hf : env.fetch w with
      | none => rfl
      | some sel =>
        show podEvents p (Ev.fetch w ::
          (processCandidates env UpdateMode.InPlaceOrRecreate ls
            (candidatesOf env pods w sel)).2) = []
        rw [podEvents_fetch_cons]
        refine podEvents_processCandidates_not_mem env _ p _ ls (fun hmem => ?_)
        rw [mem_candidatesOf env pods w sel p hf hmem] at h
        exact Bool.true_eq_false.mp h

theorem shapeOk_processWorkload (env : Env) (pods : List Pod)
    (ignored : List String) (ls : LimSt) (w : Workload) (p : Pod)
    (hnd : pods.Nodup) :
    ShapeOk env p (podEvents p (processWorkload env pods ignored ls w).2) := by
  unfold processWorkload
  by_cases hig : ignored.contains w.ns
  · rw [if_pos hig]; left; rfl
  · rw [if_neg hig]
    cases hm : effectiveMode env w with
    | Off => left; rfl
    | Initial => left; rfl
    | Auto =>
      cases hf : env.fetch w with
      | none => left; rfl
      | some sel =>
        show ShapeOk env p (podEvents p (Ev.fetch w ::
          (processCandidates env UpdateMode.Auto ls (candidatesOf env pods w sel)).2))
        rw [podEvents_fetch_cons]
        exact shapeOk_processCandidates env _ p _ ls
          (candidatesOf_nodup env pods w sel hnd)
    | InPlaceOrRecreate =>
      cases hf : env.fetch w with
      | none => left; rfl
      | some sel =>
        show ShapeOk env p (podEvents p (Ev.fetch w ::
          (processCandidates env UpdateMode.InPlaceOrRecreate ls
            (candidatesOf env pods w sel)).2))
        rw [podEvents_fetch_cons]
        exact shapeOk_processCandidates env _ p _ ls
          (candidatesOf_nodup env pods w sel hnd)

theorem podEvents_processWorkloads_not_match (env : Env) (pods : List Pod)
    (ignored : List String) (p : Pod) :
    ∀ (ws : List Workload) (ls : LimSt),
      (∀ w ∈ ws, matchesWorkload env w p = false) →
      podEvents p (processWorkloads env pods ignored ls ws).2 = [] := by
  intro ws
  induction ws with
  | nil => intro ls _; rfl
  | cons w rest ih =>
    intro ls hall
    show podEvents p ((processWorkload env pods ignored ls w).2 ++ _) = []
    rw [podEvents_append,
      podEvents_processWorkload_not_match env pods ignored ls w p
        (hall w (List.mem_cons_self w rest)),
      ih _ (fun w' hw' => hall w' (List.mem_cons_of_mem w hw'))]
    rfl

theorem shapeOk_processWorkloads (env : Env) (pods : List Pod)
    (ignored : List String) (p : Pod) (hnd : pods.Nodup) :
    ∀ (ws : List Workload) (ls : LimSt),
      ws.Pairwise (fun w1 w2 => ∀ q, matchesWorkload env w1 q = true →
        matchesWorkload env w2 q = false) →
      ShapeOk env p (podEvents p (processWorkloads env pods ignored ls ws).2) := by
  intro ws
  induction ws with
  | nil => intro ls _; left; rfl
  | cons w rest ih =>
    intro ls hpw
    rcases List.pairwise_cons.mp hpw with ⟨hw, hrest⟩
    show ShapeOk env p (podEvents p ((processWorkload env pods ignored ls w).2 ++ _))
    rw [podEvents_append]
    cases hm : matchesWorkload env w p with
    | true =>
      rw [podEvents_processWorkloads_not_match env pods ignored p rest _
        (fun w' hw' => hw w' hw' p hm), List.append_nil]
      exact shapeOk_processWorkload env pods ignored ls w p hnd
    | false =>
      rw [podEvents_processWorkload_not_match env pods ignored ls w p hm,
        List.nil_append]
      exact ih _ hrest

theorem any_eq_any_podEvents (f : Ev → Bool) (p : Pod)
    (hf : ∀ e, f e = true → aboutPod p e = true) :
    ∀ evs : List Ev, evs.any f = (podEvents p evs).any f := by
  intro evs
  induction evs with
  | nil => rfl
  | cons e rest ih =>
    cases he : aboutPod p e with
    | true =>
      simp only [podEvents, List.filter_cons, he, if_true, List.any_cons]
      rw [ih]
      rfl
    | false =>
      have hfe : f e = false := by
        cases hfe : f e with
        | true => rw [hf e hfe] at he; exact absurd he (by simp)
        | false => rfl
      simp only [podEvents, List.filter_cons, he, List.any_cons, hfe,
        Bool.false_or]
      rw [ih]
      rfl

theorem isInPlaceSuccOf_about (p : Pod) (e : Ev)
    (h : isInPlaceSuccOf p e = true) : aboutPod p e = true := by
  cases e with
  | fetch w => exact absurd h (by simp [isInPlaceSuccOf])
  | inPlace q b =>
    cases b with
    | true => simpa [isInPlaceSuccOf, aboutPod] using h
    | false => exact absurd h (by simp [isInPlaceSuccOf])
  | evict q b => exact absurd h (by simp [isInPlaceSuccOf])

theorem isInPlaceOf_about (p : Pod) (e : Ev)
    (h : isInPlaceOf p e = true) : aboutPod p e = true := by
  cases e with
  | fetch w => exact absurd h (by simp [isInPlaceOf])
  | inPlace q b => simpa [isInPlaceOf, aboutPod] using h
  | evict q b => exact absurd h (by simp [isInPlaceOf])

theorem isEvictOf_about (p : Pod) (e : Ev)
    (h : isEvictOf p e = true) : aboutPod p e = true := by
  cases e with
  | fetch w => exact absurd h (by simp [isEvictOf])
  | inPlace q b => exact absurd h (by simp [isEvictOf])
  | evict q b => simpa [isEvictOf, aboutPod] using h

theorem inPlacePerformed_podEvents (p : Pod) (evs : List Ev) :
    inPlacePerformed p evs = inPlacePerformed p (podEvents p evs) :=
  any_eq_any_podEvents _ p (isInPlaceSuccOf_about p) evs

theorem evictionPerformed_podEvents (p : Pod) (evs : List Ev) :
    evictionPerformed p evs = evictionPerformed p (podEvents p evs) :=
  any_eq_any_podEvents _ p (isEvictOf_about p) evs

theorem hasInPlaceOf_podEvents (p : Pod) (evs : List Ev) :
    hasInPlaceOf p evs = hasInPlaceOf p (podEvents p evs) :=
  any_eq_any_podEvents _ p (isInPlaceOf_about p) evs

theorem evictThenInPlace_podEvents (p : Pod) :
    ∀ evs : List Ev, evictThenInPlace p evs = evictThenInPlace p (podEvents p evs) := by
  intro evs
  induction evs with
  | nil => rfl
  | cons e rest ih =>
    cases he : aboutPod p e with
    | true =>
      simp only [podEvents, List.filter_cons, he, if_true]
      show ((isEvictOf p e && hasInPlaceOf p rest) || evictThenInPlace p rest) =
        ((isEvictOf p e && hasInPlaceOf p (podEvents p rest)) ||
          evictThenInPlace p (podEvents p rest))
      rw [← hasInPlaceOf_podEvents, ← ih]
    | false =>
      have hfe : isEvictOf p e = false := by
        cases hfe : isEvictOf p e with
        | true => rw [isEvictOf_about p e hfe] at he; exact absurd he (by simp)
        | false => rfl
      simp only [podEvents, List.filter_cons, he]
      show ((isEvictOf p e && hasInPlaceOf p rest) || evictThenInPlace p rest) =
        evictThenInPlace p (podEvents p rest)
      rw [hfe, Bool.false_and, Bool.false_or, ih]

theorem processWorkload_run (env : Env) (pods : List Pod) (ignored : List String)
    (ls : LimSt) (w : Workload) (sel : Selector) (mode : UpdateMode)
    (hig : ignored.contains w.ns = false)
    (hm : effectiveMode env w = mode)
    (hmode : mode = UpdateMode.Auto ∨ mode = UpdateMode.InPlaceOrRecreate)
    (hf : env.fetch w = some sel) :
    processWorkload env pods ignored ls w =
      ((processCandidates env mode ls (candidatesOf env pods w sel)).1,
        Ev.fetch w :: (processCandidates env mode ls (candidatesOf env pods w sel)).2) := by
  unfold processWorkload
  rw [if_neg (by rw [hig]; exact Bool.false_ne_true), hm]
  rcases hmode with h | h <;> subst h <;> rw [hf]

theorem processPod_auto_inf (env : Env) (p : Pod) (hce : env.canEvict p = true) :
    processPod env UpdateMode.Auto infLs p = (infLs, [Ev.evict p (env.evictOk p)]) := by
  show evictionPath env infLs p = _
  unfold evictionPath
  simp [Limiter.tryTake, hce, infLs]

theorem processCandidates_auto_inf (env : Env) (hce : ∀ p, env.canEvict p = true) :
    ∀ cands : List Pod,
      processCandidates env UpdateMode.Auto infLs cands =
        (infLs, cands.map (fun p => Ev.evict p (env.evictOk p))) := by
  intro cands
  induction cands with
  | nil => rfl
  | cons p rest ih =>
    show ((processCandidates env UpdateMode.Auto
        (processPod env UpdateMode.Auto infLs p).1 rest).1,
      (processPod env UpdateMode.Auto infLs p).2 ++
        (processCandidates env UpdateMode.Auto
          (processPod env UpdateMode.Auto infLs p).1 rest).2) = _
    rw [processPod_auto_inf env p (hce p), ih]
    rfl

theorem processPod_inplace_fail_inf (env : Env) (p : Pod)
    (happ : env.canInPlaceUpdate p = InPlaceDecision.Approved)
    (hfail : env.inPlaceOk p = false)
    (hce : env.canEvict p = true) :
    processPod env UpdateMode.InPlaceOrRecreate infLs p =
      (infLs, [Ev.inPlace p false, Ev.evict p (env.evictOk p)]) := by
  unfold processPod evictionPath
  simp [Limiter.tryTake, happ, hfail, hce, infLs]

theorem processCandidates_inplace_fail_inf (env : Env)
    (happ : ∀ p, env.canInPlaceUpdate p = InPlaceDecision.Approved)
    (hfail : ∀ p, env.inPlaceOk p = false)
    (hce : ∀ p, env.canEvict p = true) :
    ∀ cands : List Pod,
      processCandidates env UpdateMode.InPlaceOrRecreate infLs cands =
        (infLs, cands.flatMap
          (fun p => [Ev.inPlace p false, Ev.evict p (env.evictOk p)])) := by
  intro cands
  induction cands with
  | nil => rfl
  | cons p rest ih =>
    show ((processCandidates env UpdateMode.InPlaceOrRecreate
        (processPod env UpdateMode.InPlaceOrRecreate infLs p).1 rest).1,
      (processPod env UpdateMode.InPlaceOrRecreate infLs p).2 ++
        (processCandidates env UpdateMode.InPlaceOrRecreate
          (processPod env UpdateMode.InPlaceOrRecreate infLs p).1 rest).2) = _
    rw [processPod_inplace_fail_inf env p (happ p) (hfail p) (hce p), ih]
    rfl

theorem shapeOk_props (env : Env) (p : Pod) (t : List Ev) (h : ShapeOk env p t) :
    ¬(inPlacePerformed p t = true ∧ evictionPerformed p t = true) ∧
    evictThenInPlace p t = false := by
  rcases h with h | h | h | h | h <;> subst h <;>
    simp [inPlacePerformed, evictionPerformed, evictThenInPlace, hasInPlaceOf,
      isInPlaceSuccOf, isEvictOf, isInPlaceOf]

theorem processCandidates_auto_no_inplace (env : Env) :
    ∀ (cands : List Pod) (ls : LimSt) (e : Ev),
      e ∈ (processCandidates env UpdateMode.Auto ls cands).2 →
      isInPlaceEv e = false := by
  intro cands
  induction cands with
  | nil => intro ls e he; exact absurd he (by simp [processCandidates])
  | cons p rest ih =>
    intro ls e he
    have he' : e ∈ (processPod env UpdateMode.Auto ls p).2 ++
        (processCandidates env UpdateMode.Auto
          (processPod env UpdateMode.Auto ls p).1 rest).2 := he
    rcases List.mem_append.mp he' with h | h
    · rw [processPod_auto] at h
      rcases evictionPath_shape env ls p with hs | hs <;> rw [hs] at h
      · exact absurd h (by simp)
      · rcases List.mem_singleton.mp h with rfl
        rfl
    · exact ih _ e h

/-! ## Claim theorems -/

/-- **C2.** Rate-limiter construction: a configured rate ≤ 0 yields the
unlimited limiter, on which every sequence of token takes succeeds regardless
of the configured burst; a rate > 0 yields a limiter whose reported rate
equals the input rate and whose reported burst equals the configured burst. -/
theorem getRateLimiter_spec (r : Rat) (b : Int) :
    (r ≤ 0 → getRateLimiter r b = Limiter.inf ∧
      ∀ n, takesOk (getRateLimiter r b) n = true) ∧
    (0 < r → (getRateLimiter r b).limitOf = some r ∧
      (getRateLimiter r b).burstOf = some b) := by
  constructor
  · intro h
    have he : getRateLimiter r b = Limiter.inf := by
      unfold getRateLimiter; rw [if_pos h]
    exact ⟨he, fun n => by rw [he]; exact takesOk_inf n⟩
  · intro h
    have he : getRateLimiter r b = Limiter.bucket r b b := by
      unfold getRateLimiter; rw [if_neg (not_le.mpr h)]
    rw [he]
    exact ⟨rfl, rfl⟩

/-- Witness for **C2** at the inputs of `TestGetRateLimiter`: rate -1 with
burst 2 is unlimited (seven consecutive takes succeed), rate 10 with burst 3
reports rate 10 and burst 3. -/
theorem getRateLimiter_spec_witness :
    getRateLimiter (-1) 2 = Limiter.inf ∧
    takesOk (getRateLimiter (-1) 2) 7 = true ∧
    (getRateLimiter 10 3).limitOf = some 10 ∧
    (getRateLimiter 10 3).burstOf = some 3 :=
  ⟨((getRateLimiter_spec (-1) 2).1 (by norm_num)).1,
   ((getRateLimiter_spec (-1) 2).1 (by norm_num)).2 7,
   ((getRateLimiter_spec 10 3).2 (by norm_num)).1,
   ((getRateLimiter_spec 10 3).2 (by norm_num)).2⟩

/-- **C3.** When the status validator reports invalid, the whole cycle has no
side effects: no selector fetches, no evictions, no in-place updates, and the
rate limiters are untouched — for any workloads and pods. -/
theorem runOnce_invalid_status (env : Env) (ignored : List String) (ls : LimSt)
    (workloads : List Workload) (pods : List Pod)
    (h : env.statusValid = false) :
    runOnce env ignored ls workloads pods = (ls, []) := by
  unfold runOnce
  rw [h]
  simp

/-- Witness for **C3**: with the invalid-status validator, a workload and five
matching pods, the cycle is empty; the same setup with a valid status evicts
all five pods (so the pods do match and the gate is what suppressed them). -/
theorem runOnce_invalid_status_witness :
    runOnce (testEnv false InPlaceDecision.Approved true) [] infLs
      [testW (some UpdateMode.Auto)] pods5 = (infLs, []) ∧
    countEvicts (runOnce (testEnv true InPlaceDecision.Approved true) [] infLs
      [testW (some UpdateMode.Auto)] pods5).2 = 5 :=
  ⟨runOnce_invalid_status _ _ _ _ _ rfl, by decide⟩

/-- **C4.** A workload whose update mode is Off or Initial is skipped
entirely: no selector resolution is attempted, no disruptive action occurs on
its pods, and the rate limiters are untouched, regardless of pod state. -/
theorem processWorkload_off_initial (env : Env) (pods : List Pod)
    (ignored : List String) (ls : LimSt) (w : Workload)
    (h : w.updateMode = some UpdateMode.Off ∨
      w.updateMode = some UpdateMode.Initial) :
    processWorkload env pods ignored ls w = (ls, []) := by
  unfold processWorkload
  by_cases hig : ignored.contains w.ns
  · rw [if_pos hig]
  · rw [if_neg hig]
    rcases h with h | h <;>
      · have hm : effectiveMode env w = w.updateMode.getD UpdateMode.Auto := by
          simp [effectiveMode, h]
        rw [hm, h]
        rfl

/-- Witness for **C4**: in the `testRunOnceBase` setting with five matching
pods, both an Off-mode and an Initial-mode workload produce no events. -/
theorem processWorkload_off_initial_witness :
    processWorkload (testEnv true InPlaceDecision.Approved true) pods5 [] infLs
      (testW (some UpdateMode.Off)) = (infLs, []) ∧
    processWorkload (testEnv true InPlaceDecision.Approved true) pods5 [] infLs
      (testW (some UpdateMode.Initial)) = (infLs, []) :=
  ⟨processWorkload_off_initial _ _ _ _ _ (Or.inl rfl),
   processWorkload_off_initial _ _ _ _ _ (Or.inr rfl)⟩

/-- **C5.** For a workload whose update mode is Auto, the in-place action is
never invoked on any pod: every event of its processing is a fetch or an
eviction. -/
theorem processWorkload_auto_never_inplace (env : Env) (pods : List Pod)
    (ignored : List String) (ls : LimSt) (w : Workload)
    (h : w.updateMode = some UpdateMode.Auto) :
    ∀ e ∈ (processWorkload env pods ignored ls w).2, isInPlaceEv e = false := by
  have hm : effectiveMode env w = UpdateMode.Auto := by simp [effectiveMode, h]
  by_cases hig : ignored.contains w.ns
  · intro e he
    rw [show processWorkload env pods ignored ls w = (ls, []) from by
      unfold processWorkload; rw [if_pos hig]] at he
    exact absurd he (by simp)
  · rw [Bool.not_eq_true] at hig
    cases hf : env.fetch w with
    | none =>
      intro e he
      rw [show processWorkload env pods ignored ls w = (ls, [Ev.fetch w]) from by
        unfold processWorkload
        rw [if_neg (by rw [hig]; exact Bool.false_ne_true), hm, hf]] at he
      rcases List.mem_singleton.mp he with rfl
      rfl
    | some sel =>
      rw [processWorkload_run env pods ignored ls w sel UpdateMode.Auto hig hm
        (Or.inl rfl) hf]
      intro e he
      rcases List.mem_cons.mp he with rfl | hmem
      · rfl
      · exact processCandidates_auto_no_inplace env _ ls e hmem

/-- Witness for **C5**: the Auto-mode scenario of `TestRunOnce_Mode` — every
event of the cycle's single workload is checked not to be an in-place
action (its five matching pods are in fact all evicted). -/
theorem processWorkload_auto_never_inplace_witness :
    isInPlaceEv (Ev.fetch (testW (some UpdateMode.Auto))) = false ∧
    countInPlace (processWorkload (testEnv true InPlaceDecision.Approved true)
      pods5 [] infLs (testW (some UpdateMode.Auto))).2 = 0 ∧
    countEvicts (processWorkload (testEnv true InPlaceDecision.Approved true)
      pods5 [] infLs (testW (some UpdateMode.Auto))).2 = 5 :=
  ⟨processWorkload_auto_never_inplace (testEnv true InPlaceDecision.Approved true)
      pods5 [] infLs (testW (some UpdateMode.Auto)) rfl
      (Ev.fetch (testW (some UpdateMode.Auto))) (by decide),
   by decide, by decide⟩

/-- **C7.** A candidate pod whose in-place eligibility decision is Deferred
receives no action in this cycle: neither the in-place action nor the
eviction action is invoked for it, and processing continues. -/
theorem processPod_deferred_no_action (env : Env) (ls : LimSt) (p : Pod)
    (h : env.canInPlaceUpdate p = InPlaceDecision.Deferred) :
    (processPod env UpdateMode.InPlaceOrRecreate ls p).2 = [] := by
  unfold processPod
  by_cases ht : (ls.inPlaceL.tryTake).1 <;> simp [ht, h]

/-- Witness for **C7**: the Deferred scenario of `TestRunOnce_Mode` — a pod
whose decision is Deferred produces no events (and the whole five-pod
workload produces neither evictions nor in-place updates). -/
theorem processPod_deferred_no_action_witness :
    (processPod (testEnv true InPlaceDecision.Deferred true)
      UpdateMode.InPlaceOrRecreate infLs
      { name := "test_0", ns := "default",
        labels := [("app", "testingApp")] }).2 = [] ∧
    countEvicts (processWorkload (testEnv true InPlaceDecision.Deferred true)
      pods5 [] infLs (testW (some UpdateMode.InPlaceOrRecreate))).2 = 0 ∧
    countInPlace (processWorkload (testEnv true InPlaceDecision.Deferred true)
      pods5 [] infLs (testW (some UpdateMode.InPlaceOrRecreate))).2 = 0 :=
  ⟨processPod_deferred_no_action _ _ _ rfl, by decide, by decide⟩

/-- **C6.** For a workload in InPlaceOrRecreate mode (feature gate on,
unlimited limiters) whose candidates are all Approved for in-place but whose
in-place actions all fail and which can all be evicted, every candidate pod
gets exactly one in-place attempt immediately followed by one eviction, in
that order, within the same cycle. -/
theorem processWorkload_inplace_fail_fallback (env : Env) (pods : List Pod)
    (ignored : List String) (ls : LimSt) (w : Workload) (sel : Selector)
    (hmode : w.updateMode = some UpdateMode.InPlaceOrRecreate)
    (hgate : env.gateInPlace = true)
    (hig : ignored.contains w.ns = false)
    (hfetch : env.fetch w = some sel)
    (hls : ls = infLs)
    (happ : ∀ p, env.canInPlaceUpdate p = InPlaceDecision.Approved)
    (hfail : ∀ p, env.inPlaceOk p = false)
    (hce : ∀ p, env.canEvict p = true) :
    (processWorkload env pods ignored ls w).2 =
      Ev.fetch w :: (candidatesOf env pods w sel).flatMap
        (fun p => [Ev.inPlace p false, Ev.evict p (env.evictOk p)]) := by
  subst hls
  have hm : effectiveMode env w = UpdateMode.InPlaceOrRecreate := by
    simp [effectiveMode, hmode, hgate]
  rw [processWorkload_run env pods ignored infLs w sel _ hig hm (Or.inr rfl)
    hfetch]
  show Ev.fetch w :: (processCandidates env UpdateMode.InPlaceOrRecreate infLs
    (candidatesOf env pods w sel)).2 = _
  rw [processCandidates_inplace_fail_inf env happ hfail hce]

/-- Witness for **C6**: the failed-in-place scenario of `TestRunOnce_Mode` —
five matching pods, all approved, all in-place actions failing: the trace is
five (in-place, eviction) pairs, hence 5 in-place attempts and 5 evictions. -/
theorem processWorkload_inplace_fail_fallback_witness :
    (processWorkload (testEnv true InPlaceDecision.Approved false) pods5 []
      infLs (testW (some UpdateMode.InPlaceOrRecreate))).2 =
      Ev.fetch (testW (some UpdateMode.InPlaceOrRecreate)) ::
        (candidatesOf (testEnv true InPlaceDecision.Approved false) pods5
          (testW (some UpdateMode.InPlaceOrRecreate)) sel5).flatMap
          (fun p => [Ev.inPlace p false,
            Ev.evict p ((testEnv true InPlaceDecision.Approved false).evictOk p)]) ∧
    countInPlace (processWorkload (testEnv true InPlaceDecision.Approved false)
      pods5 [] infLs (testW (some UpdateMode.InPlaceOrRecreate))).2 = 5 ∧
    countEvicts (processWorkload (testEnv true InPlaceDecision.Approved false)
      pods5 [] infLs (testW (some UpdateMode.InPlaceOrRecreate))).2 = 5 :=
  ⟨processWorkload_inplace_fail_fallback _ _ _ _ _ _ rfl rfl rfl rfl rfl
    (fun _ => rfl) (fun _ => rfl) (fun _ => rfl), by decide, by decide⟩

/-- **C8.** The ignored-namespace filter is keyed on the workload's
namespace: a workload whose namespace is in the ignored set is skipped
entirely (no fetch, no actions, limiters untouched), and a workload whose
namespace is not in the set is processed exactly as if the ignored set were
empty. -/
theorem processWorkload_ignored_namespace (env : Env) (pods : List Pod)
    (ignored : List String) (ls : LimSt) (w : Workload) :
    (ignored.contains w.ns = true →
      processWorkload env pods ignored ls w = (ls, [])) ∧
    (ignored.contains w.ns = false →
      processWorkload env pods ignored ls w =
        processWorkload env pods [] ls w) := by
  constructor
  · intro h
    unfold processWorkload
    rw [if_pos h]
  · intro h
    unfold processWorkload
    rw [if_neg (by rw [h]; exact Bool.false_ne_true),
      if_neg (show ¬(([] : List String).contains w.ns = true) from
        fun hh => Bool.false_ne_true hh)]

/-- Witness for **C8**: the two ignored-namespace tests — namespace `default`
in the ignored set yields no events; ignored set `["not-default"]` leaves the
workload processed as with no ignored set, and its five matching pods are
all evicted. -/
theorem processWorkload_ignored_namespace_witness :
    processWorkload (testEnv true InPlaceDecision.Approved true) pods5
      ["default"] infLs (testW (some UpdateMode.Auto)) = (infLs, []) ∧
    processWorkload (testEnv true InPlaceDecision.Approved true) pods5
      ["not-default"] infLs (testW (some UpdateMode.Auto)) =
      processWorkload (testEnv true InPlaceDecision.Approved true) pods5 []
        infLs (testW (some UpdateMode.Auto)) ∧
    countEvicts (processWorkload (testEnv true InPlaceDecision.Approved true)
      pods5 ["not-default"] infLs (testW (some UpdateMode.Auto))).2 = 5 :=
  ⟨(processWorkload_ignored_namespace _ _ _ _ _).1 (by decide),
   (processWorkload_ignored_namespace _ _ _ _ _).2 (by decide),
   by decide⟩

/-- **C9.** A workload whose update-mode field is unset has effective mode
Auto, and (with unlimited limiters, all pods evictable) its candidates are
disrupted via the eviction path: the trace is the fetch followed by one
eviction per candidate, with no in-place action anywhere. -/
theorem processWorkload_unset_mode_auto (env : Env) (pods : List Pod)
    (ignored : List String) (ls : LimSt) (w : Workload) (sel : Selector)
    (hmode : w.updateMode = none)
    (hig : ignored.contains w.ns = false)
    (hfetch : env.fetch w = some sel)
    (hls : ls = infLs)
    (hce : ∀ p, env.canEvict p = true) :
    effectiveMode env w = UpdateMode.Auto ∧
    (processWorkload env pods ignored ls w).2 =
      Ev.fetch w :: (candidatesOf env pods w sel).map
        (fun p => Ev.evict p (env.evictOk p)) := by
  subst hls
  have hm : effectiveMode env w = UpdateMode.Auto := by
    simp [effectiveMode, hmode]
  refine ⟨hm, ?_⟩
  rw [processWorkload_run env pods ignored infLs w sel _ hig hm (Or.inl rfl)
    hfetch]
  show Ev.fetch w :: (processCandidates env UpdateMode.Auto infLs
    (candidatesOf env pods w sel)).2 = _
  rw [processCandidates_auto_inf env hce]

/-- Witness for **C9**: the no-update-policy workload of
`TestRunOnceIgnoreNamespaceMatchingPods` — effective mode Auto, five eligible
matching pods, 5 evictions, 0 in-place updates. -/
theorem processWorkload_unset_mode_auto_witness :
    effectiveMode (testEnv true InPlaceDecision.Approved true) (testW none) =
      UpdateMode.Auto ∧
    (processWorkload (testEnv true InPlaceDecision.Approved true) pods5 []
      infLs (testW none)).2 =
      Ev.fetch (testW none) ::
        (candidatesOf (testEnv true InPlaceDecision.Approved true) pods5
          (testW none) sel5).map
          (fun p => Ev.evict p
            ((testEnv true InPlaceDecision.Approved true).evictOk p)) ∧
    countEvicts (processWorkload (testEnv true InPlaceDecision.Approved true)
      pods5 [] infLs (testW none)).2 = 5 ∧
    countInPlace (processWorkload (testEnv true InPlaceDecision.Approved true)
      pods5 [] infLs (testW none)).2 = 0 :=
  ⟨(processWorkload_unset_mode_auto (testEnv true InPlaceDecision.Approved true)
      pods5 [] infLs (testW none) sel5 rfl rfl rfl rfl (fun _ => rfl)).1,
   (processWorkload_unset_mode_auto (testEnv true InPlaceDecision.Approved true)
      pods5 [] infLs (testW none) sel5 rfl rfl rfl rfl (fun _ => rfl)).2,
   by decide, by decide⟩

/-- **C10.** Recording an event for any object and any (type, reason,
message) triple produces exactly one event, recorded against that object,
whose type, reason and message equal the given values and whose source
component is the fixed string `vpa-updater`. -/
theorem recordEvent_spec {α : Type} (obj : α) (etype reason message : String) :
    (recordEvent obj etype reason message).length = 1 ∧
    (recordEvent obj etype reason message).head? = some (obj,
      { eventType := etype, reason := reason, message := message,
        sourceComponent := "vpa-updater" }) :=
  ⟨rfl, rfl⟩

/-- **C1** (counterexample).  As stated — "for every pod in every cycle, at
most one of eviction/in-place is performed and an eviction is never followed
by an in-place attempt" — the claim fails when two workloads of one cycle
both select the same pod: here an Auto workload and an InPlaceOrRecreate
workload share the selector, so the pod is first evicted (for the first
workload) and then in-place updated (for the second) in the same cycle. -/
theorem runOnce_double_action_cex :
    inPlacePerformed podA (runOnce (testEnv true InPlaceDecision.Approved true)
      [] infLs [testW (some UpdateMode.Auto),
        testW (some UpdateMode.InPlaceOrRecreate)] [podA]).2 = true ∧
    evictionPerformed podA (runOnce (testEnv true InPlaceDecision.Approved true)
      [] infLs [testW (some UpdateMode.Auto),
        testW (some UpdateMode.InPlaceOrRecreate)] [podA]).2 = true ∧
    evictThenInPlace podA (runOnce (testEnv true InPlaceDecision.Approved true)
      [] infLs [testW (some UpdateMode.Auto),
        testW (some UpdateMode.InPlaceOrRecreate)] [podA]).2 = true := by
  decide

/-- **C1** (amended).  For every pod of a cycle whose live pod list has no
duplicates and in which no two distinct workload entries both match the pod,
at most one of {eviction performed, in-place update performed} holds (a
failed in-place attempt may still be followed by an eviction of the same
pod), and an eviction is never followed by an in-place attempt on that pod
in the same cycle. -/
theorem runOnce_at_most_one_action (env : Env) (ignored : List String)
    (ls : LimSt) (workloads : List Workload) (pods : List Pod) (p : Pod)
    (hnd : pods.Nodup)
    (hdisj : workloads.Pairwise (fun w1 w2 => ∀ q,
      matchesWorkload env w1 q = true → matchesWorkload env w2 q = false)) :
    ¬(inPlacePerformed p (runOnce env ignored ls workloads pods).2 = true ∧
      evictionPerformed p (runOnce env ignored ls workloads pods).2 = true) ∧
    evictThenInPlace p (runOnce env ignored ls workloads pods).2 = false := by
  unfold runOnce
  by_cases hw : workloads.isEmpty
  · rw [if_pos hw]
    exact ⟨fun h => by simpa [inPlacePerformed] using h.1, rfl⟩
  · rw [if_neg hw]
    by_cases hs : !env.statusValid
    · rw [if_pos hs]
      exact ⟨fun h => by simpa [inPlacePerformed] using h.1, rfl⟩
    · rw [if_neg hs]
      have hshape := shapeOk_processWorkloads env pods ignored p hnd workloads
        ls hdisj
      have hprops := shapeOk_props env p _ hshape
      constructor
      · rintro ⟨h1, h2⟩
        rw [inPlacePerformed_podEvents] at h1
        rw [evictionPerformed_podEvents] at h2
        exact hprops.1 ⟨h1, h2⟩
      · rw [evictThenInPlace_podEvents]
        exact hprops.2

/-- Witness for the amended **C1**: the Auto scenario of `TestRunOnce_Mode`
(one workload, five distinct pods) satisfies the no-duplicate and
disjoint-workload hypotheses, and the invariant holds for the first pod. -/
theorem runOnce_at_most_one_action_witness :
    ¬(inPlacePerformed podA (runOnce (testEnv true InPlaceDecision.Approved true)
        [] infLs [testW (some UpdateMode.Auto)] pods5).2 = true ∧
      evictionPerformed podA (runOnce (testEnv true InPlaceDecision.Approved true)
        [] infLs [testW (some UpdateMode.Auto)] pods5).2 = true) ∧
    evictThenInPlace podA (runOnce (testEnv true InPlaceDecision.Approved true)
      [] infLs [testW (some UpdateMode.Auto)] pods5).2 = false :=
  runOnce_at_most_one_action (testEnv true InPlaceDecision.Approved true) []
    infLs [testW (some UpdateMode.Auto)] pods5 podA (by decide) (by simp)

end VpaUpdater
